import Mathlib

/-!
Verification of the model lifecycle / inference-orchestration core of the
`rebuildbackend` repository (`src/core/inference_engine.rs`).

The embedding is shallow: the Rust structs become Lean structures, the
stateful methods become explicit state-passing functions, and the external
capabilities (tokenizer adapter, candle inference backend, the
`LogitsProcessor` sampler, system entropy, the wall clock, UUID generation)
become parameters, exactly as the spec designates them external
collaborators.  Machine integers are modelled as `Nat` with explicit
`% 2 ^ w` where the source performs a truncating cast or where `u64`/`u32`
arithmetic can wrap.  The `f32` sampling parameters are modelled as `Rat`;
the embedded code never performs arithmetic on them (which is itself one of
the verified facts below).
-/

/-- Sampling parameters (struct `InferenceConfig`, inference_engine.rs lines 16-24).
The `f32` fields are modelled as `Rat`; `generate` below never computes with them. -/
structure InferenceConfig where
  temperature : Rat
  top_p : Rat
  top_k : Nat
  max_tokens : Nat
  repeat_penalty : Rat
  seed : Option Nat
deriving Repr

/-- The `Default` instance of `InferenceConfig` (lines 26-37). -/
def InferenceConfig.default : InferenceConfig :=
  { temperature := 4/5
    top_p := 9/10
    top_k := 40
    max_tokens := 512
    repeat_penalty := 11/10
    seed := none }

/-- Chat message (struct `ChatMessage`, lines 49-53). -/
structure ChatMessage where
  role : String
  content : String
deriving Repr, DecidableEq

/-- Generation request (struct `GenerationRequest`, lines 39-47). -/
structure GenerationRequest where
  model : String
  prompt : String
  system : Option String
  context : Option (List Int)
  stream : Bool
  format : Option String

/-- Chat request (struct `ChatRequest`, lines 55-60). -/
structure ChatRequest where
  model : String
  messages : List ChatMessage
  stream : Bool

/-- Generation response (struct `GenerationResponse`, lines 62-75).
`u32`/`u64` fields are `Nat` (wrapping is applied at the producing site). -/
structure GenerationResponse where
  model : String
  created_at : String
  response : String
  done : Bool
  context : Option (List Int)
  total_duration : Option Nat
  load_duration : Option Nat
  prompt_eval_count : Option Nat
  prompt_eval_duration : Option Nat
  eval_count : Option Nat
  eval_duration : Option Nat

/-- Chat response (struct `ChatResponse`, lines 77-89). -/
structure ChatResponse where
  model : String
  created_at : String
  message : ChatMessage
  done : Bool
  total_duration : Option Nat
  load_duration : Option Nat
  prompt_eval_count : Option Nat
  prompt_eval_duration : Option Nat
  eval_count : Option Nat
  eval_duration : Option Nat

/-- A loaded model (struct `ModelInstance`, lines 91-98).  The opaque handles
`weights : W` (candle `ModelWeights` plus its mutable cache) is a type
parameter; the tokenizer and device handles are carried by the `Backend`
capability record below, which every call receives alongside the instance. -/
structure ModelInstance (W : Type) where
  model_id : String
  weights : W
  config : InferenceConfig
  session_id : String

/-- External capabilities consumed by `ModelInstance::generate`:
* `encode`/`decode`/`token_to_id` — the tokenizer adapter
  (`tokenizers::Tokenizer`); `encode prompt true` returns the token ids
  (`encode(..., true)` then `get_ids()`), and either may fail;
* `forward` — the candle backend step `self.weights.forward(&tokens,
  current_len, &device)` followed by `squeeze(0)` and `get(current_len-1)`
  (lines 161-164), producing this step's next-token logits of abstract type
  `L` and the updated weight/cache state;
* `from_entropy_seed` — `LogitsProcessor::from_entropy_seed(seed)`, a
  deterministic sampler state built from the seed; the system-entropy
  construction `LogitsProcessor::from_entropy()` is modelled by the caller
  supplying an ambient `entropy : R` value per call;
* `sample` — `logits_processor.sample(&logits)`, threading the sampler
  state `R`. -/
structure Backend (W L R : Type) where
  encode : String → Bool → Except String (List Nat)
  decode : List Nat → Bool → Except String String
  token_to_id : String → Option Nat
  forward : W → List Nat → Nat → Except String (L × W)
  from_entropy_seed : Nat → R
  sample : R → L → Except String (Nat × R)

/-- BOS handling (lines 152-155): `if tokens.first() != Some(&bos_token)
\x7b tokens.insert(0, bos_token); \x7d`. -/
def addBos (bos : Nat) (tokens : List Nat) : List Nat :=
  if tokens.head? = some bos then tokens else bos :: tokens

/-- Body of the sampling loop `for index in 0..config.max_tokens` (lines
160-179), written as recursion on `rem = max_tokens - index` (so `rem = 0`
iff the `for` iterator is exhausted), with `index` kept explicitly so the
source's `index == config.max_tokens - 1` early-stop test appears verbatim.
Each iteration: backend forward step, sample, push the token onto both the
history and the generated list, bump `current_len`, then stop on the
end-of-sequence token, stop on the last index, or continue. -/
def genLoopAux (fwd : W → List Nat → Nat → Except String (L × W))
    (smp : R → L → Except String (Nat × R)) (eos maxTokens : Nat) :
    Nat → Nat → W → R → List Nat → List Nat → Nat → Except String (List Nat × W)
  | 0, _, w, _, _, gen, _ => .ok (gen, w)
  | rem + 1, index, w, rng, tokens, gen, currentLen =>
    match fwd w tokens currentLen with
    | .error e => .error e
    | .ok (logits, w') =>
      match smp rng logits with
      | .error e => .error e
      | .ok (next, rng') =>
        let tokens' := tokens ++ [next]
        let gen' := gen ++ [next]
        let currentLen' := currentLen + 1
        if next = eos then .ok (gen', w')
        else if index = maxTokens - 1 then .ok (gen', w')
        else genLoopAux fwd smp eos maxTokens rem (index + 1) w' rng' tokens' gen' currentLen'

/-- The sampling loop entered at `index = 0` with the full budget. -/
def genLoop (fwd : W → List Nat → Nat → Except String (L × W))
    (smp : R → L → Except String (Nat × R)) (eos maxTokens : Nat)
    (w : W) (rng : R) (tokens gen : List Nat) (currentLen : Nat) :
    Except String (List Nat × W) :=
  genLoopAux fwd smp eos maxTokens maxTokens 0 w rng tokens gen currentLen

/-- `ModelInstance::generate` (lines 128-189).  Steps, in source order:
encode the prompt (wrapping the error as the source's `map_err` does);
return `Ok("")` immediately on an empty encoding; build the logits
processor from the seed, or from system entropy (the `entropy` argument)
when no seed is present; look up the end/beginning-of-sequence ids with the
source's `unwrap_or(2)` / `unwrap_or(1)` defaults; prepend BOS if absent;
run the sampling loop; decode only the newly generated ids (wrapping the
error) and trim whitespace.  The mutated weight/cache state is returned
alongside the text (the timing log line has no observable effect and is
omitted). -/
def ModelInstance.generate (B : Backend W L R) (self : ModelInstance W)
    (prompt : String) (config : InferenceConfig) (entropy : R) :
    Except String (String × W) :=
  match B.encode prompt true with
  | .error e => .error ("Failed to encode prompt: " ++ e)
  | .ok tokens =>
    if tokens = [] then .ok ("", self.weights)
    else
      let rng0 : R := match config.seed with
        | some s => B.from_entropy_seed s
        | none => entropy
      let eos_token := (B.token_to_id "<|endoftext|>").getD 2
      let bos_token := (B.token_to_id "<s>").getD 1
      let tokens1 := addBos bos_token tokens
      match genLoop B.forward B.sample eos_token config.max_tokens
          self.weights rng0 tokens1 [] tokens1.length with
      | .error e => .error e
      | .ok (generated, w') =>
        match B.decode generated true with
        | .error e => .error ("Failed to decode generated tokens: " ++ e)
        | .ok text => .ok (text.trim, w')

/-- C3: a prompt whose encoding is the empty token sequence yields
`Ok("")` immediately with the weights untouched, whatever the rest of the
backend does (the conclusion is independent of `forward`, `sample` and
`decode`, which is the embedded form of "no backend call"), and no error is
possible on this path. -/
theorem generate_empty_encoding_ok {W L R : Type} (B : Backend W L R)
    (inst : ModelInstance W) (prompt : String) (config : InferenceConfig)
    (entropy : R) (h : B.encode prompt true = .ok []) :
    inst.generate B prompt config entropy = .ok ("", inst.weights) := by
  simp [ModelInstance.generate, h]

/-- Concrete run of `generate_empty_encoding_ok`: a backend whose encoder
returns no tokens, with a forward step and decoder that would error if ever
consulted. -/
def emptyEncBackend : Backend Unit Unit Nat :=
  { encode := fun _ _ => .ok []
    decode := fun _ _ => .error "decode must not be reached"
    token_to_id := fun _ => none
    forward := fun _ _ _ => .error "forward must not be reached"
    from_entropy_seed := fun s => s
    sample := fun _ _ => .error "sample must not be reached" }

/-- Witness for C3 at a concrete instance and prompt. -/
theorem generate_empty_encoding_ok_witness :
    ModelInstance.generate emptyEncBackend
      ⟨"m", (), InferenceConfig.default, "sid"⟩ "" InferenceConfig.default 0
      = .ok ("", ()) :=
  generate_empty_encoding_ok emptyEncBackend
    ⟨"m", (), InferenceConfig.default, "sid"⟩ "" InferenceConfig.default 0 rfl

/-- C6: when the config carries `seed = some s`, the output of `generate`
does not depend on the ambient system entropy: two runs from the same
initial state agree whatever entropy the environment would have supplied
(`LogitsProcessor::from_entropy_seed(seed)` is used, line 145, and the
`from_entropy` branch, line 146, is dead). -/
theorem generate_seeded_deterministic {W L R : Type} (B : Backend W L R)
    (inst : ModelInstance W) (prompt : String) (config : InferenceConfig)
    (s : Nat) (h : config.seed = some s) (e₁ e₂ : R) :
    inst.generate B prompt config e₁ = inst.generate B prompt config e₂ := by
  simp only [ModelInstance.generate, h]

/-- Backend used by concrete seeded/unseeded runs: one real token then the
end-of-sequence token 2. -/
def seededBackend : Backend Unit Unit Nat :=
  { encode := fun _ _ => .ok [5]
    decode := fun _ _ => .ok " hello "
    token_to_id := fun _ => none
    forward := fun w _ _ => .ok ((), w)
    from_entropy_seed := fun s => s
    sample := fun r _ => .ok (2, r + 1) }

/-- A seeded configuration with a small budget. -/
def seededConfig : InferenceConfig :=
  { InferenceConfig.default with max_tokens := 3, seed := some 7 }

/-- Witness for C6: with `seed = some 7`, entropies 0 and 99 give the same
result. -/
theorem generate_seeded_deterministic_witness :
    (seededConfig.seed = some 7) ∧
      ModelInstance.generate seededBackend
          ⟨"m", (), InferenceConfig.default, "sid"⟩ "hi" seededConfig 0
        = ModelInstance.generate seededBackend
          ⟨"m", (), InferenceConfig.default, "sid"⟩ "hi" seededConfig 99 :=
  ⟨rfl, generate_seeded_deterministic seededBackend
    ⟨"m", (), InferenceConfig.default, "sid"⟩ "hi" seededConfig 7 rfl 0 99⟩

/-- C2 (divergence witness): `generate` never reads `temperature`, `top_p`,
`top_k` or `repeat_penalty` — two configs agreeing on `max_tokens` and
`seed` alone produce identical behaviour on every backend, every instance
and every prompt.  In the source the logits processor is built without any
of these values (lines 144-147) and the loop applies no transformation to
the logits before sampling (lines 160-179), although the spec requires
temperature, top-k, top-p and repeat-penalty to be applied each iteration. -/
theorem generate_ignores_sampling_params {W L R : Type} (B : Backend W L R)
    (inst : ModelInstance W) (prompt : String) (entropy : R)
    (c₁ c₂ : InferenceConfig) (hm : c₁.max_tokens = c₂.max_tokens)
    (hs : c₁.seed = c₂.seed) :
    inst.generate B prompt c₁ entropy = inst.generate B prompt c₂ entropy := by
  obtain ⟨t₁, p₁, k₁, m₁, r₁, s₁⟩ := c₁
  obtain ⟨t₂, p₂, k₂, m₂, r₂, s₂⟩ := c₂
  simp only at hm hs
  subst hm hs
  rfl

/-- Two configs differing in every sampling parameter the spec says must be
applied, agreeing only on `max_tokens` and `seed`. -/
def hotConfig : InferenceConfig :=
  { temperature := 100, top_p := 1/100, top_k := 1, max_tokens := 3,
    repeat_penalty := 5, seed := some 7 }

/-- Witness for C2's divergence theorem at concrete differing configs. -/
theorem generate_ignores_sampling_params_witness :
    ModelInstance.generate seededBackend
        ⟨"m", (), InferenceConfig.default, "sid"⟩ "hi" seededConfig 0
      = ModelInstance.generate seededBackend
        ⟨"m", (), InferenceConfig.default, "sid"⟩ "hi" hotConfig 0 :=
  generate_ignores_sampling_params seededBackend
    ⟨"m", (), InferenceConfig.default, "sid"⟩ "hi" 0 seededConfig hotConfig rfl rfl

/-- The loop body appends at most one token per remaining iteration:
whenever it returns successfully, the generated list grew by at most
`rem`. -/
theorem genLoopAux_length_le {W L R : Type}
    (fwd : W → List Nat → Nat → Except String (L × W))
    (smp : R → L → Except String (Nat × R)) (eos maxTokens : Nat) :
    ∀ (rem index : Nat) (w : W) (rng : R) (tokens gen : List Nat)
      (currentLen : Nat) (out : List Nat × W),
      genLoopAux fwd smp eos maxTokens rem index w rng tokens gen currentLen
        = .ok out → out.1.length ≤ gen.length + rem
  | 0, index, w, rng, tokens, gen, currentLen, out => by
    intro h
    simp only [genLoopAux, Except.ok.injEq] at h
    subst h
    simp
  | rem + 1, index, w, rng, tokens, gen, currentLen, out => by
    intro h
    simp only [genLoopAux] at h
    split at h
    · exact absurd h (by simp)
    · split at h
      · exact absurd h (by simp)
      · split at h
        · simp only [Except.ok.injEq] at h
          subst h
          simp only [List.length_append, List.length_cons, List.length_nil]
          omega
        · split at h
          · simp only [Except.ok.injEq] at h
            subst h
            simp only [List.length_append, List.length_cons, List.length_nil]
            omega
          · have IH := genLoopAux_length_le fwd smp eos maxTokens rem
              (index + 1) _ _ _ _ _ out h
            simp only [List.length_append, List.length_cons, List.length_nil]
              at IH
            omega

/-- Sampling-loop scenario stubs are total: lifting pure functions into the
`Except`-valued backend interface. -/
def pureFwd (f : W → List Nat → Nat → L × W) :
    W → List Nat → Nat → Except String (L × W) :=
  fun w ts cl => .ok (f w ts cl)

/-- Pure sampler lifted into the `Except`-valued sampler interface. -/
def pureSmp (s : R → L → Nat × R) : R → L → Except String (Nat × R) :=
  fun r l => .ok (s r l)

/-- With total stubs whose sampler never yields the end token, the loop
returns successfully and emits exactly `rem` further tokens, provided the
`for`-iterator invariant `rem + index = maxTokens` holds. -/
theorem genLoopAux_no_eos_length {W L R : Type}
    (f : W → List Nat → Nat → L × W) (s : R → L → Nat × R) (eos maxTokens : Nat)
    (hs : ∀ r l, (s r l).1 ≠ eos) :
    ∀ (rem index : Nat) (w : W) (rng : R) (tokens gen : List Nat)
      (currentLen : Nat), rem + index = maxTokens →
      ∃ out : List Nat × W,
        genLoopAux (pureFwd f) (pureSmp s) eos maxTokens rem index w rng
          tokens gen currentLen = .ok out ∧ out.1.length = gen.length + rem
  | 0, index, w, rng, tokens, gen, currentLen => by
    intro _
    exact ⟨(gen, w), rfl, by simp⟩
  | rem + 1, index, w, rng, tokens, gen, currentLen => by
    intro hinv
    simp only [genLoopAux, pureFwd, pureSmp]
    rw [if_neg (hs rng (f w tokens currentLen).1)]
    by_cases hi : index = maxTokens - 1
    · have hrem : rem = 0 := by omega
      rw [if_pos hi]
      exact ⟨(gen ++ [(s rng (f w tokens currentLen).1).1],
        (f w tokens currentLen).2), rfl, by simp [hrem]⟩
    · rw [if_neg hi]
      obtain ⟨out, hout, hlen⟩ := genLoopAux_no_eos_length f s eos maxTokens hs
        rem (index + 1) (f w tokens currentLen).2
        (s rng (f w tokens currentLen).1).2
        (tokens ++ [(s rng (f w tokens currentLen).1).1])
        (gen ++ [(s rng (f w tokens currentLen).1).1]) (currentLen + 1)
        (by omega)
      refine ⟨out, hout, ?_⟩
      simp at hlen
      omega

/-- With a call-counting sampler whose third draw is the end token (draws
numbered from the initial state 0), and a budget of at least 3, the loop
stops after exactly the three tokens `g 0`, `g 1`, `g 2`. -/
theorem genLoopAux_eos_third_draw {W L : Type}
    (f : W → List Nat → Nat → L × W) (g : Nat → Nat) (eos : Nat) (k : Nat)
    (h0 : g 0 ≠ eos) (h1 : g 1 ≠ eos) (h2 : g 2 = eos)
    (w : W) (tokens : List Nat) (currentLen : Nat) :
    ∃ w' : W,
      genLoopAux (pureFwd f) (pureSmp (fun r _ => (g r, r + 1))) eos (k + 3)
        (k + 3) 0 w 0 tokens [] currentLen
      = .ok ([g 0, g 1, g 2], w') := by
  have c0 : ¬ ((0 : Nat) = k + 3 - 1) := by omega
  have c1 : ¬ ((1 : Nat) = k + 3 - 1) := by omega
  simp [genLoopAux, pureFwd, pureSmp, h0, h1, h2, c0, c1]

/-- C1: termination and stopping rules of the sampling loop (lines
160-179).  (i) For every backend, whenever the loop entered with an empty
generated list returns, it has produced at most `maxTokens` tokens.
(ii) With any total stub backend whose sampler never emits the
end-of-sequence token, the loop succeeds and produces exactly `maxTokens`
tokens.  (iii) With any total stub backend whose sampler emits the
end-of-sequence token on its third draw and a budget `maxTokens ≥ 3`, the
loop succeeds and produces exactly the first three sampled tokens (the
end token included, as the source pushes it before testing it). -/
theorem generation_loop_bound_and_stop :
    (∀ (W L R : Type) (fwd : W → List Nat → Nat → Except String (L × W))
      (smp : R → L → Except String (Nat × R)) (eos maxTokens : Nat) (w : W)
      (rng : R) (tokens : List Nat) (currentLen : Nat) (out : List Nat × W),
      genLoop fwd smp eos maxTokens w rng tokens [] currentLen = .ok out →
        out.1.length ≤ maxTokens)
    ∧ (∀ (W L R : Type) (f : W → List Nat → Nat → L × W) (s : R → L → Nat × R)
      (eos maxTokens : Nat) (w : W) (rng : R) (tokens : List Nat)
      (currentLen : Nat), (∀ r l, (s r l).1 ≠ eos) →
      ∃ out : List Nat × W,
        genLoop (pureFwd f) (pureSmp s) eos maxTokens w rng tokens []
          currentLen = .ok out ∧ out.1.length = maxTokens)
    ∧ (∀ (W L : Type) (f : W → List Nat → Nat → L × W) (g : Nat → Nat)
      (eos maxTokens : Nat) (w : W) (tokens : List Nat) (currentLen : Nat),
      g 0 ≠ eos → g 1 ≠ eos → g 2 = eos → 3 ≤ maxTokens →
      ∃ w' : W,
        genLoop (pureFwd f) (pureSmp (fun r _ => (g r, r + 1))) eos maxTokens
          w 0 tokens [] currentLen = .ok ([g 0, g 1, g 2], w')) := by
  refine ⟨?_, ?_, ?_⟩
  · intro W L R fwd smp eos maxTokens w rng tokens currentLen out h
    have := genLoopAux_length_le fwd smp eos maxTokens maxTokens 0 w rng
      tokens [] currentLen out h
    simpa using this
  · intro W L R f s eos maxTokens w rng tokens currentLen hs
    obtain ⟨out, hout, hlen⟩ := genLoopAux_no_eos_length f s eos maxTokens hs
      maxTokens 0 w rng tokens [] currentLen (by omega)
    exact ⟨out, hout, by simpa using hlen⟩
  · intro W L f g eos maxTokens w tokens currentLen h0 h1 h2 hm
    obtain ⟨k, hk⟩ := Nat.exists_eq_add_of_le hm
    subst hk
    have := genLoopAux_eos_third_draw f g eos k h0 h1 h2 w tokens currentLen
    simpa [genLoop, Nat.add_comm] using this

/-- Witness for C1: clause (iii) applied at a fully concrete stub (sampler
draws 10, 11, then the end token 2, budget 5) yields exactly the three
tokens 10, 11, 2. -/
theorem generation_loop_bound_and_stop_witness :
    ∃ w' : Unit,
      genLoop (pureFwd fun _ _ _ => ((), ()))
        (pureSmp (fun r _ => ((if r = 0 then 10 else if r = 1 then 11 else 2), r + 1)))
        2 5 () 0 [1, 7] [] 2
      = .ok ([10, 11, 2], w') := by
  have := generation_loop_bound_and_stop.2.2 Unit Unit
    (fun _ _ _ => ((), ())) (fun r => if r = 0 then 10 else if r = 1 then 11 else 2)
    2 5 () [1, 7] 2 (by decide) (by decide) (by decide) (by decide)
  simpa using this

/-- Instrumented backend for observing the sampling loop's input: the
weight state records the token sequence of the first `forward` call and is
then left unchanged; encoding, token lookup, sampling and decoding are
arbitrary total stubs. -/
def logBackend (tt : String → Option Nat) (enc : List Nat)
    (smp : Nat → Nat) (dec : List Nat → String) :
    Backend (Option (List Nat)) Unit Nat where
  encode := fun _ _ => .ok enc
  decode := fun g _ => .ok (dec g)
  token_to_id := tt
  forward := fun w ts _ => .ok ((), match w with | none => some ts | some x => some x)
  from_entropy_seed := fun s => s
  sample := fun r _ => .ok (smp r, r + 1)

/-- Once the instrumented weight state holds a recorded sequence, the loop
never changes it. -/
theorem genLoopAux_log_invariant (tt : String → Option Nat) (enc : List Nat)
    (smp : Nat → Nat) (dec : List Nat → String) (eos maxTokens : Nat) :
    ∀ (rem index : Nat) (x : List Nat) (rng : Nat) (tokens gen : List Nat)
      (currentLen : Nat) (out : List Nat × Option (List Nat)),
      genLoopAux (logBackend tt enc smp dec).forward
          (logBackend tt enc smp dec).sample eos maxTokens rem index (some x)
          rng tokens gen currentLen = .ok out → out.2 = some x
  | 0, index, x, rng, tokens, gen, currentLen, out => by
    intro h
    simp only [genLoopAux, Except.ok.injEq] at h
    subst h
    rfl
  | rem + 1, index, x, rng, tokens, gen, currentLen, out => by
    intro h
    simp only [genLoopAux, logBackend] at h
    split at h
    · simp only [Except.ok.injEq] at h
      subst h
      rfl
    · split at h
      · simp only [Except.ok.injEq] at h
        subst h
        rfl
      · exact genLoopAux_log_invariant tt enc smp dec eos maxTokens rem
          (index + 1) x _ _ _ _ out (by simpa [logBackend] using h)

/-- The instrumented loop is total: it always returns successfully. -/
theorem genLoopAux_log_total (tt : String → Option Nat) (enc : List Nat)
    (smp : Nat → Nat) (dec : List Nat → String) (eos maxTokens : Nat) :
    ∀ (rem index : Nat) (w : Option (List Nat)) (rng : Nat)
      (tokens gen : List Nat) (currentLen : Nat),
      ∃ out, genLoopAux (logBackend tt enc smp dec).forward
        (logBackend tt enc smp dec).sample eos maxTokens rem index w rng
        tokens gen currentLen = .ok out
  | 0, index, w, rng, tokens, gen, currentLen => ⟨(gen, w), rfl⟩
  | rem + 1, index, w, rng, tokens, gen, currentLen => by
    simp only [genLoopAux, logBackend]
    by_cases he : smp rng = eos
    · exact ⟨_, by rw [if_pos he]⟩
    · rw [if_neg he]
      by_cases hi : index = maxTokens - 1
      · exact ⟨_, by rw [if_pos hi]⟩
      · rw [if_neg hi]
        exact genLoopAux_log_total tt enc smp dec eos maxTokens rem
          (index + 1) _ _ _ _ _

/-- Starting from an empty recording, a loop that runs at least one
iteration records exactly the token sequence it was entered with, and
succeeds. -/
theorem genLoopAux_log_first (tt : String → Option Nat) (enc : List Nat)
    (smp : Nat → Nat) (dec : List Nat → String) (eos maxTokens : Nat)
    (rem index rng : Nat) (tokens gen : List Nat) (currentLen : Nat) :
    ∃ g', genLoopAux (logBackend tt enc smp dec).forward
        (logBackend tt enc smp dec).sample eos maxTokens (rem + 1) index none
        rng tokens gen currentLen = .ok (g', some tokens) := by
  simp only [genLoopAux, logBackend]
  by_cases he : smp rng = eos
  · exact ⟨gen ++ [smp rng], by rw [if_pos he]⟩
  · rw [if_neg he]
    by_cases hi : index = maxTokens - 1
    · exact ⟨gen ++ [smp rng], by rw [if_pos hi]⟩
    · rw [if_neg hi]
      obtain ⟨out, hout⟩ := genLoopAux_log_total tt enc smp dec eos maxTokens
        rem (index + 1) (some tokens) (rng + 1) (tokens ++ [smp rng])
        (gen ++ [smp rng]) (currentLen + 1)
      have h2 := genLoopAux_log_invariant tt enc smp dec eos maxTokens rem
        (index + 1) tokens (rng + 1) (tokens ++ [smp rng]) (gen ++ [smp rng])
        (currentLen + 1) out hout
      refine ⟨out.1, ?_⟩
      simp only [logBackend] at hout
      rw [hout, ← h2]

/-- C4: for every non-empty encoded prompt, the sampling loop is entered
with the BOS-adjusted sequence: the first backend `forward` call receives
`addBos bos enc`, which prepends the adapter's beginning-of-sequence token
exactly when the first element differs from it and leaves the sequence
unchanged when it is already first (lines 149-155). -/
theorem generate_prepends_bos (tt : String → Option Nat) (enc : List Nat)
    (smp : Nat → Nat) (dec : List Nat → String) (mid sid : String)
    (cfg cfg' : InferenceConfig) (entropy : Nat) (prompt : String)
    (hne : enc ≠ []) (hmt : 1 ≤ cfg.max_tokens) :
    (∃ text, ModelInstance.generate (logBackend tt enc smp dec)
        ⟨mid, none, cfg', sid⟩ prompt cfg entropy
        = .ok (text, some (addBos ((tt "<s>").getD 1) enc)))
    ∧ (enc.head? = some ((tt "<s>").getD 1) →
        addBos ((tt "<s>").getD 1) enc = enc)
    ∧ (enc.head? ≠ some ((tt "<s>").getD 1) →
        addBos ((tt "<s>").getD 1) enc = ((tt "<s>").getD 1) :: enc) := by
  refine ⟨?_, fun h => by simp [addBos, h], fun h => by simp [addBos, h]⟩
  obtain ⟨m, hm⟩ : ∃ m, cfg.max_tokens = m + 1 := by
    obtain ⟨k, hk⟩ := Nat.exists_eq_add_of_le hmt
    exact ⟨k, by omega⟩
  obtain ⟨g', hg⟩ := genLoopAux_log_first tt enc smp dec
    ((tt "<|endoftext|>").getD 2) cfg.max_tokens m 0
    (match cfg.seed with | some s => s | none => entropy)
    (addBos ((tt "<s>").getD 1) enc) [] (addBos ((tt "<s>").getD 1) enc).length
  refine ⟨(dec g').trim, ?_⟩
  simp only [logBackend] at hg
  simp only [ModelInstance.generate, logBackend, genLoop]
  rw [if_neg hne]
  rw [hm] at hg ⊢
  rw [hg]

/-- Witness for C4: encoding `[7]` whose head is not the BOS id 1, budget
3, fully concrete stubs; the loop's first forward input is `[1, 7]`. -/
theorem generate_prepends_bos_witness :
    ([7] ≠ ([] : List Nat)) ∧ 1 ≤ seededConfig.max_tokens ∧
      ∃ text, ModelInstance.generate
          (logBackend (fun _ => none) [7] (fun _ => 9) (fun _ => "x"))
          ⟨"m", none, InferenceConfig.default, "s"⟩ "hi" seededConfig 0
        = .ok (text, some [1, 7]) :=
  ⟨by decide, by decide, by
    have h := (generate_prepends_bos (fun _ => none) [7] (fun _ => 9)
      (fun _ => "x") "m" "s" seededConfig InferenceConfig.default 0 "hi"
      (by decide) (by decide)).1
    simpa [addBos] using h⟩

/-- Character-list helper: `pat` occurs at the start of the second list. -/
def charsStart : List Char → List Char → Bool
  | [], _ => true
  | _ :: _, [] => false
  | p :: ps, c :: cs => p == c && charsStart ps cs

/-- Character-list helper: `pat` occurs somewhere in the second list. -/
def charsIn (pat : List Char) : List Char → Bool
  | [] => charsStart pat []
  | c :: cs => charsStart pat (c :: cs) || charsIn pat cs

/-- Rust `str::contains` for a plain substring pattern
(`conversation.contains("[/INST]")`, line 121). -/
def strIn (s pat : String) : Bool :=
  charsIn pat.toList s.toList

/-- Rust `str::ends_with` for a plain substring pattern (used to state the
spec's "ends with a closing marker" condition). -/
def strEnds (s pat : String) : Bool :=
  charsStart pat.toList.reverse s.toList.reverse

/-- `ModelInstance::apply_chat_template` (lines 101-126; the method never
reads `self`).  A system message is wrapped as
`<s>[INST] <<SYS>>…<</SYS>>` up front; the first user turn with no system
message opens `<s>[INST] …`; an assistant turn appends ` … </s>`; other
roles are skipped; finally ` [/INST]` is appended iff the conversation
does not CONTAIN `[/INST]` anywhere (a substring test, line 121).
The remaining user branch (line 114) does not compile in the source — its
`format!(" \x7b\x7d </s><s>[INST] \x7b\x7d", message.content)` has two
placeholders but a single argument — so that branch alone is Modelled from
the spec: "each user turn opens an instruction span", here closing the
previous span and opening a new one carrying the message content.  No
theorem below depends on that branch. -/
def ModelInstance.apply_chat_template (messages : List ChatMessage)
    (system : Option String) : String :=
  let conv0 := match system with
    | some system_msg => "<s>[INST] <<SYS>>" ++ system_msg ++ "<</SYS>>"
    | none => ""
  let conv := messages.enum.foldl (fun conversation im =>
    if im.2.role = "user" then
      if im.1 = 0 ∧ system = none then
        conversation ++ "<s>[INST] " ++ im.2.content
      else
        conversation ++ " </s><s>[INST] " ++ im.2.content
    else if im.2.role = "assistant" then
      conversation ++ " " ++ im.2.content ++ " </s>"
    else conversation) conv0
  if strIn conv "[/INST]" then conv else conv ++ " [/INST]"

/-- C8: the claim's first scenario does hold — `[(user, "Hi")]` with no
system message renders to `<s>[INST] Hi [/INST]` — but the trailing-marker
rule diverges from the claim: the source appends ` [/INST]` based on
substring CONTAINMENT, not on whether the prompt already ENDS with a
closing marker.  At the failing input `[(user, "a[/INST]b")]` (no system
message, touching only source lines that compile) the rendered prompt is
`<s>[INST] a[/INST]b`: it does not end with a closing instruction marker,
yet no trailing marker was appended, contradicting the claim's
"exactly when" condition. -/
theorem chat_template_trailing_marker_divergence :
    ModelInstance.apply_chat_template [⟨"user", "Hi"⟩] none
        = "<s>[INST] Hi [/INST]"
      ∧ ModelInstance.apply_chat_template [⟨"user", "a[/INST]b"⟩] none
        = "<s>[INST] a[/INST]b"
      ∧ strEnds "<s>[INST] a[/INST]b" "[/INST]" = false := by
  refine ⟨by decide, by decide, by decide⟩

/-- The loaded-model table (struct `InferenceEngine`, lines 192-196): the
`Mutex<HashMap<String, ModelInstance>>` is an association list with
HashMap-style operations (a HashMap holds at most one entry per key); the
`device` and the CPU guard carry no observable state.  The `tokio` mutex
makes each method body atomic, so concurrent calls are modelled as the
sequential composition the mutex serializes them into. -/
structure InferenceEngine (W : Type) where
  models : List (String × ModelInstance W)

/-- `HashMap::get`: first value bound to the key, if any. -/
def mapLookup (l : List (String × α)) (k : String) : Option α :=
  match l with
  | [] => none
  | p :: t => match p.1 == k with
    | true => some p.2
    | false => mapLookup t k

/-- `HashMap::remove`: drop the entry with the given key. -/
def mapErase (l : List (String × α)) (k : String) : List (String × α) :=
  l.filter fun p => p.1 != k

/-- `HashMap::insert`: bind the key to the new value, replacing any
previous binding. -/
def mapInsert (l : List (String × α)) (k : String) (v : α) :
    List (String × α) :=
  (k, v) :: mapErase l k

/-- `HashMap::get_mut` followed by writing the updated instance back in
place: re-associates the entry with the new value, touching no keys. -/
def mapUpdate (l : List (String × α)) (k : String) (v : α) :
    List (String × α) :=
  l.map fun p => if p.1 == k then (k, v) else p

/-- A key is never found after `mapErase` removed it. -/
theorem mapLookup_mapErase (l : List (String × α)) (k : String) :
    mapLookup (mapErase l k) k = none := by
  induction l with
  | nil => rfl
  | cons p t ih =>
    cases hb : p.1 == k
    · have hkeep : mapErase (p :: t) k = p :: mapErase t k := by
        simp [mapErase, List.filter_cons, bne, hb]
      rw [hkeep]
      simp only [mapLookup, hb]
      exact ih
    · have hdrop : mapErase (p :: t) k = mapErase t k := by
        simp [mapErase, List.filter_cons, bne, hb]
      rw [hdrop]
      exact ih

/-- `mapUpdate` leaves the key list exactly as it was. -/
theorem mapUpdate_keys (l : List (String × α)) (k : String) (v : α) :
    (mapUpdate l k v).map Prod.fst = l.map Prod.fst := by
  unfold mapUpdate
  rw [List.map_map]
  refine List.map_congr_left ?_
  intro p _
  by_cases hb : (p.1 == k) = true
  · simp [Function.comp, hb, beq_iff_eq.mp hb]
  · simp [Function.comp, hb]

/-- `InferenceEngine::unload_model` (lines 234-241): removes the entry and
reports whether anything was removed; every path returns `Ok` (the only
other effect is a log line). -/
def InferenceEngine.unload_model (e : InferenceEngine W) (model_id : String) :
    Except String (Bool × InferenceEngine W) :=
  .ok ((mapLookup e.models model_id).isSome, ⟨mapErase e.models model_id⟩)

/-- C5: `unload_model` never fails and returns exactly whether an instance
was present and removed; in particular, with an instance loaded, calling it
twice in a row returns `true` then `false`, both times successfully. -/
theorem unload_model_status {W : Type} (e : InferenceEngine W) (id : String) :
    (∃ e₁, e.unload_model id = .ok ((mapLookup e.models id).isSome, e₁))
    ∧ ((mapLookup e.models id).isSome = true →
        ∃ e₁ e₂, e.unload_model id = .ok (true, e₁)
          ∧ e₁.unload_model id = .ok (false, e₂)) := by
  constructor
  · exact ⟨⟨mapErase e.models id⟩, rfl⟩
  · intro h
    refine ⟨⟨mapErase e.models id⟩, ⟨mapErase (mapErase e.models id) id⟩, ?_, ?_⟩
    · simp [InferenceEngine.unload_model, h]
    · simp [InferenceEngine.unload_model, mapLookup_mapErase]

/-- Witness for C5 at a one-entry table. -/
theorem unload_model_status_witness :
    ∃ e₁ e₂,
      (InferenceEngine.mk
          [("m", (⟨"m", (), InferenceConfig.default, "s"⟩ : ModelInstance Unit))]
        ).unload_model "m" = .ok (true, e₁)
      ∧ e₁.unload_model "m" = .ok (false, e₂) :=
  (unload_model_status
    (InferenceEngine.mk
      [("m", (⟨"m", (), InferenceConfig.default, "s"⟩ : ModelInstance Unit))])
    "m").2 (by decide)

/-- `InferenceEngine::load_model` (lines 210-232).  The expensive
weight/tokenizer acquisition is left unimplemented in the source
(`weights: todo!(...)`, `tokenizer: todo!(...)`, lines 221-222), so that
step alone is Modelled from the spec: an abstract loader capability
`loader : S → W × S` materializes a weight handle and advances its own
state (which lets a proof count how many expensive loads actually ran).
The fresh `session_id` (`Uuid::new_v4()`, line 225) is an ambient
argument.  The body builds a brand-new instance and inserts it
unconditionally — the source has no presence check and no single-flight
reuse; the `tokio::sync::Mutex` only serializes the bodies of concurrent
calls, which is why two concurrent calls are modelled as their sequential
composition. -/
def InferenceEngine.load_model (e : InferenceEngine W) (loader : S → W × S)
    (_model_path model_id : String) (config : InferenceConfig)
    (session_id : String) (s : S) :
    Except String Unit × InferenceEngine W × S :=
  let loaded := loader s
  let model_instance : ModelInstance W :=
    { model_id := model_id, weights := loaded.1, config := config,
      session_id := session_id }
  (.ok (), ⟨mapInsert e.models model_id model_instance⟩, loaded.2)

/-- A loader stub whose state counts how many expensive loads ran. -/
def countingLoader : Nat → Unit × Nat := fun n => ((), n + 1)

/-- First of two serialized loads of the same identifier. -/
def ex9Step1 : Except String Unit × InferenceEngine Unit × Nat :=
  (InferenceEngine.mk []).load_model countingLoader "/models/m.gguf" "m"
    InferenceConfig.default "sid1" 0

/-- Second serialized load of the same identifier, continuing from the
first call's table and loader state. -/
def ex9Step2 : Except String Unit × InferenceEngine Unit × Nat :=
  ex9Step1.2.1.load_model countingLoader "/models/m.gguf" "m"
    InferenceConfig.default "sid2" ex9Step1.2.2

/-- C9 (divergence): two `load_model` requests for one identifier — the
sequential composition the global mutex reduces two concurrent calls to —
both succeed, but the expensive load runs twice (the counter ends at 2,
not 1), and the second call does not reuse the first call's instance: the
table afterwards holds an instance with the second call's fresh session
id.  There is no single-flight load in the source. -/
theorem load_model_not_single_flight :
    ex9Step1.1 = .ok () ∧ ex9Step2.1 = .ok () ∧ ex9Step2.2.2 = 2
      ∧ (mapLookup ex9Step2.2.1.models "m").map
          (fun i => i.session_id) = some "sid2" :=
  ⟨rfl, rfl, rfl, rfl⟩

/-- Prompt assembly in `InferenceEngine::generate` (lines 250-254):
`format!("\x7b\x7d\n\n\x7b\x7d", system, prompt)` when a system string is
present, the bare prompt otherwise. -/
def buildPrompt (system : Option String) (prompt : String) : String :=
  match system with
  | some s => s ++ "\n\n" ++ prompt
  | none => prompt

/-- `InferenceEngine::generate` (lines 243-273).  The wall clock
(`Instant::now`/`elapsed`, as nanoseconds cast to `u64`) and the
`created_at` timestamp (`chrono::Utc::now().to_rfc3339()`) are ambient
arguments.  A missing model yields the `Model not found` error and leaves
the table as it was; otherwise the instance generates against its own
stored config, the response is assembled with the source's documented
rough estimates — `prompt_eval_count = prompt.len() as u32 / 4`,
`eval_count = response_text.len() as u32 / 4`, a 1/10 vs 9/10 duration
split with `u64` wrapping — and the instance (with its mutated backend
state) is written back under its unchanged key.  On an inner generation
error the source keeps whatever partial cache mutation happened inside the
instance; the embedding keeps the prior instance — the table's key set,
which is all the claims below concern, is identical either way. -/
def InferenceEngine.generate (e : InferenceEngine W) (B : Backend W L R)
    (request : GenerationRequest) (entropy : R) (nowStr : String)
    (elapsed : Nat) : Except String GenerationResponse × InferenceEngine W :=
  match mapLookup e.models request.model with
  | none => (.error ("Model not found: " ++ request.model), e)
  | some model =>
    let prompt := buildPrompt request.system request.prompt
    match model.generate B prompt model.config entropy with
    | .error err => (.error err, e)
    | .ok (response_text, w') =>
      let total_duration := elapsed % 2 ^ 64
      (.ok { model := request.model
             created_at := nowStr
             response := response_text
             done := true
             context := request.context
             total_duration := some total_duration
             load_duration := none
             prompt_eval_count := some (prompt.length % 2 ^ 32 / 4)
             prompt_eval_duration := some (total_duration / 10)
             eval_count := some (response_text.length % 2 ^ 32 / 4)
             eval_duration := some (total_duration * 9 % 2 ^ 64 / 10) },
       ⟨mapUpdate e.models request.model { model with weights := w' }⟩)

/-- `InferenceEngine::chat` (lines 275-311): finds the first system
message, keeps the user/assistant turns in order, renders them through the
chat template, and otherwise mirrors `generate`, shaping a `ChatResponse`
with a single assistant message and the same estimate arithmetic. -/
def InferenceEngine.chat (e : InferenceEngine W) (B : Backend W L R)
    (request : ChatRequest) (entropy : R) (nowStr : String)
    (elapsed : Nat) : Except String ChatResponse × InferenceEngine W :=
  match mapLookup e.models request.model with
  | none => (.error ("Model not found: " ++ request.model), e)
  | some model =>
    let system_msg := (request.messages.find?
      (fun msg => msg.role == "system")).map (fun msg => msg.content)
    let user_messages := request.messages.filter
      (fun msg => msg.role == "user" || msg.role == "assistant")
    let prompt := ModelInstance.apply_chat_template user_messages system_msg
    match model.generate B prompt model.config entropy with
    | .error err => (.error err, e)
    | .ok (response_text, w') =>
      let total_duration := elapsed % 2 ^ 64
      (.ok { model := request.model
             created_at := nowStr
             message := ⟨"assistant", response_text⟩
             done := true
             total_duration := some total_duration
             load_duration := none
             prompt_eval_count := some (prompt.length % 2 ^ 32 / 4)
             prompt_eval_duration := some (total_duration / 10)
             eval_count := some (response_text.length % 2 ^ 32 / 4)
             eval_duration := some (total_duration * 9 % 2 ^ 64 / 10) },
       ⟨mapUpdate e.models request.model { model with weights := w' }⟩)

/-- C10: neither `generate` nor `chat` ever adds or removes a table entry:
on success, on an inner generation failure and on the model-not-found path
alike, the key list of the loaded-model table after the call is exactly
the key list before it. -/
theorem generate_chat_preserve_model_keys {W L R : Type} (B : Backend W L R)
    (e : InferenceEngine W) (entropy : R) (nowStr : String) (elapsed : Nat) :
    (∀ request : GenerationRequest,
      ((e.generate B request entropy nowStr elapsed).2).models.map Prod.fst
        = e.models.map Prod.fst)
    ∧ (∀ request : ChatRequest,
      ((e.chat B request entropy nowStr elapsed).2).models.map Prod.fst
        = e.models.map Prod.fst) := by
  constructor
  · intro request
    simp only [InferenceEngine.generate]
    split
    · rfl
    · split
      · rfl
      · exact mapUpdate_keys _ _ _
  · intro request
    simp only [InferenceEngine.chat]
    split
    · rfl
    · split
      · rfl
      · exact mapUpdate_keys _ _ _

/-- C7 (amended form): on every successful `generate` call the reported
usage counters are the source's documented rough estimates — the
system-augmented prompt string's length divided by 4 and the response
text's length divided by 4 (as truncating `u32` casts) — not token
counts. -/
theorem usage_counts_are_length_estimates {W L R : Type} (B : Backend W L R)
    (e : InferenceEngine W) (request : GenerationRequest) (entropy : R)
    (nowStr : String) (elapsed : Nat) (resp : GenerationResponse)
    (h : (e.generate B request entropy nowStr elapsed).1 = .ok resp) :
    resp.prompt_eval_count
        = some ((buildPrompt request.system request.prompt).length % 2 ^ 32 / 4)
      ∧ resp.eval_count = some (resp.response.length % 2 ^ 32 / 4) := by
  simp only [InferenceEngine.generate] at h
  split at h
  · exact absurd h (by simp)
  · split at h
    · exact absurd h (by simp)
    · simp only [Except.ok.injEq] at h
      subst h
      exact ⟨rfl, rfl⟩

/-- Concrete backend for the usage-counter runs: every prompt encodes to
the single token `[5]`, the sampler immediately draws the default
end-of-sequence id 2, and decoding yields a four-character text. -/
def cexBackend : Backend Unit Unit Nat :=
  { encode := fun _ _ => .ok [5]
    decode := fun _ _ => .ok "okay"
    token_to_id := fun _ => none
    forward := fun w _ _ => .ok ((), w)
    from_entropy_seed := fun s => s
    sample := fun r _ => .ok (2, r + 1) }

/-- Concrete loaded instance with a seeded small-budget config. -/
def cexInstance : ModelInstance Unit :=
  ⟨"m", (), { InferenceConfig.default with max_tokens := 4, seed := some 0 }, "s"⟩

/-- One-model table for the usage-counter runs. -/
def cexEngine : InferenceEngine Unit := ⟨[("m", cexInstance)]⟩

/-- Request whose prompt is the 8-character string `Hi there`. -/
def cexRequest : GenerationRequest :=
  { model := "m", prompt := "Hi there", system := none, context := none,
    stream := false, format := none }

/-- C7 counterexample: at this concrete call the encoded prompt has
exactly 1 token (`encode` returns `[5]`), yet the response reports
`prompt_eval_count = 2` — the prompt's 8 characters divided by 4 — so the
claimed "prompt_eval_count equals the number of tokens in the encoded
prompt" is false on the code. -/
theorem usage_counts_not_token_counts :
    ∃ resp, (cexEngine.generate cexBackend cexRequest 0 "now" 1000).1
        = .ok resp
      ∧ cexBackend.encode
          (buildPrompt cexRequest.system cexRequest.prompt) true = .ok [5]
      ∧ resp.prompt_eval_count = some 2
      ∧ resp.prompt_eval_count ≠ some ([5] : List Nat).length :=
  ⟨_, rfl, rfl, rfl, by decide⟩

/-- Witness for C7's amended theorem at the same concrete call. -/
theorem usage_counts_are_length_estimates_witness :
    ∃ resp, (cexEngine.generate cexBackend cexRequest 0 "now" 1000).1
        = .ok resp
      ∧ resp.prompt_eval_count
          = some ((buildPrompt cexRequest.system cexRequest.prompt).length
            % 2 ^ 32 / 4)
      ∧ resp.eval_count = some (resp.response.length % 2 ^ 32 / 4) :=
  ⟨_, rfl, usage_counts_are_length_estimates cexBackend cexEngine cexRequest
    0 "now" 1000 _ rfl⟩
